import Mathlib

/-!
Verification development for the contest-submission backend
(`src/server/server.js`, primary variant, with the other file variants
agreeing on the modelled logic).

The JavaScript server is shallowly embedded: request handlers become pure
functions from a database state (a list of persisted entry documents plus an
id/clock counter) and the externally supplied gateway responses to a
result/state pair.  JavaScript `undefined` is modelled with `Option`,
string truthiness with `truthy`, `parseInt`'s NaN with `Option Int`
(`none` = NaN), and Mongoose validation with `validateDoc`.
-/

set_option maxRecDepth 4000

namespace ContestApi

/-- JavaScript truthiness of an optional string field: `undefined` and the
empty string are falsy, every other string is truthy. -/
def truthy : Option String → Bool
  | none => false
  | some s => s ≠ ""

/-- Splitting a character list at every whitespace character, keeping the
(possibly empty) fragments between consecutive separators.  JavaScript's
`v.split(/\s+/)` splits at maximal whitespace runs instead, but after the
`filter(word => word.length > 0)` step of the word counter both give exactly
the maximal non-whitespace runs, so the composite is faithful. -/
def splitOnWs : List Char → List (List Char)
  | [] => [[]]
  | c :: cs =>
    if c.isWhitespace then [] :: splitOnWs cs
    else
      match splitOnWs cs with
      | [] => [[c]]
      | t :: ts => (c :: t) :: ts

/-- `v.split(/\s+/).filter(word => word.length > 0).length` on a character
list. -/
def tokCount (l : List Char) : Nat :=
  ((splitOnWs l).filter (fun w => decide (0 < w.length))).length

/-- The word count computed by the `textContent` schema validator:
`const wordCount = v ? v.split(/\s+/).filter(word => word.length > 0).length : 0`. -/
def jsWordCount (v : Option String) : Nat :=
  if truthy v then tokCount ((v.getD ("")).data) else 0

/-- Decimal digit prefix accumulator used by the `parseInt` model; the
accumulator is `none` until a first digit has been read. -/
def digitsVal : List Char → Option Nat → Option Nat
  | [], acc => acc
  | c :: cs, acc =>
    if c.isDigit then digitsVal cs (some ((acc.getD 0) * 10 + (c.toNat - 48)))
    else acc

/-- JavaScript `parseInt` (radix 10) on a character list with leading
whitespace already removed: optional sign, then the longest digit prefix;
no digit at all gives NaN (`none`). -/
def parseIntChars : List Char → Option Int
  | '-' :: rest => (digitsVal rest none).map (fun n => -(n : Int))
  | '+' :: rest => (digitsVal rest none).map (fun n => (n : Int))
  | l => (digitsVal l none).map (fun n => (n : Int))

/-- `parseInt(x)` where `x` is an optional string (`undefined` parses to
NaN, modelled as `none`). -/
def parseIntJs (v : Option String) : Option Int :=
  match v with
  | none => none
  | some s => parseIntChars (s.data.dropWhile (fun c => c.isWhitespace))

/-- JavaScript `+` on numbers that may be NaN: NaN propagates. -/
def jsAdd : Option Int → Option Int → Option Int
  | some a, some b => some (a + b)
  | _, _ => none

/-- The base64 alphabet. -/
def b64Char (n : Nat) : Char :=
  ("ABCDEFGHIJKLMNOPQRSTUVWXYZabcdefghijklmnopqrstuvwxyz0123456789+/").data.getD n '='

/-- Standard base64 of a byte list, three bytes to four characters with
`=` padding (`Buffer.toString('base64')`). -/
def base64Chunks : List Nat → List Char
  | [] => []
  | [b0] =>
    [b64Char ((b0 % 256) / 4), b64Char ((b0 % 4) * 16), '=', '=']
  | [b0, b1] =>
    [b64Char ((b0 % 256) / 4), b64Char ((b0 % 4) * 16 + (b1 % 256) / 16),
     b64Char ((b1 % 16) * 4), '=']
  | b0 :: b1 :: b2 :: rest =>
    b64Char ((b0 % 256) / 4) :: b64Char ((b0 % 4) * 16 + (b1 % 256) / 16)
      :: b64Char ((b1 % 16) * 4 + (b2 % 256) / 64) :: b64Char (b2 % 64)
      :: base64Chunks rest

/-- `req.file.buffer.toString('base64')`. -/
def base64Encode (bytes : List Nat) : String := String.mk (base64Chunks bytes)

/-- The schema's video URL regex
`/^(https?:\/\/)?(www\.)?(youtube\.com|youtu\.be|vimeo\.com)/i`:
an optional scheme, an optional `www.`, then one of the recognized hosts,
matched case-insensitively at the start of the string. -/
def videoUrlPattern (s : String) : Bool :=
  let l := s.data.map Char.toLower
  let l1 :=
    if ("https://").data.isPrefixOf l then l.drop 8
    else if ("http://").data.isPrefixOf l then l.drop 7
    else l
  let l2 := if ("www.").data.isPrefixOf l1 then l1.drop 4 else l1
  ("youtube.com").data.isPrefixOf l2 || ("youtu.be").data.isPrefixOf l2
    || ("vimeo.com").data.isPrefixOf l2

/-- `category` enum of the Entry schema. -/
def categoryEnum : List String := ["business", "creative", "technology", "social-impact"]

/-- `entryType` enum of the Entry schema. -/
def entryTypeEnum : List String := ["text", "pitch-deck", "video"]

/-- `paymentStatus` enum of the Entry schema. -/
def paymentStatusEnum : List String := ["pending", "succeeded", "failed"]

/-- review `status` enum of the Entry schema. -/
def statusEnum : List String := ["submitted", "under-review", "finalist", "winner", "rejected"]

/-- The custom validator of `textContent`: for `text` entries the word count
must lie in [100, 2000]; for other entry types it accepts. -/
def textContentValidator (entryType : String) (v : Option String) : Bool :=
  if entryType = "text" then
    decide (100 ≤ jsWordCount v ∧ jsWordCount v ≤ 2000)
  else true

/-- The custom validator of `fileData`: `pitch-deck` entries need
`fileData` or `fileUrl` to be truthy. -/
def fileDataValidator (entryType : String) (v fileUrl : Option String) : Bool :=
  if entryType = "pitch-deck" then truthy v || truthy fileUrl else true

/-- The custom validator of `fileUrl`: `pitch-deck` entries need
`fileUrl` or `fileData` to be truthy. -/
def fileUrlValidator (entryType : String) (v fileData : Option String) : Bool :=
  if entryType = "pitch-deck" then truthy v || truthy fileData else true

/-- The custom validator of `videoUrl`: a truthy URL on a `video` entry must
match the host pattern; otherwise the entry passes unless it is a `video`
entry with a falsy URL. -/
def videoUrlValidator (entryType : String) (v : Option String) : Bool :=
  if entryType = "video" ∧ truthy v = true then videoUrlPattern (v.getD (""))
  else (decide (entryType ≠ "video")) || truthy v

/-- One persisted Entry document.  `eid` stands for the generated `_id`,
`createdAt` for the `timestamps: true` creation time (a logical clock).
The three money fields are `Option Int` because they come from `parseInt`
and may be NaN (`none`). -/
structure EntryDoc where
  eid : Nat
  userId : String
  category : String
  entryType : String
  title : String
  description : Option String
  textContent : Option String
  fileData : Option String
  fileName : Option String
  fileType : Option String
  fileSize : Option Nat
  fileUrl : Option String
  videoUrl : Option String
  entryFee : Option Int
  stripeFee : Option Int
  totalAmount : Option Int
  paymentIntentId : String
  paymentStatus : String
  status : String
  createdAt : Nat
deriving DecidableEq, Inhabited

/-- Mongoose runs a custom validator only when the path holds a defined
value; `undefined` paths skip it (only `required` sees them). -/
def validateOpt {α : Type} (v : Option α) (check : Bool) : Bool :=
  if v.isSome then check else true

/-- The Entry schema validation performed by `entry.save()` /
`Entry.insertMany`: `required` paths must be present (for strings:
non-empty), enum paths must hold an enum member, `title` must be 5–100
characters, `description` at most 1000, the custom validators run on
defined values, and the three required `Number` paths must not be NaN
(Mongoose fails the cast for NaN, modelled as `isSome`). -/
def validateDoc (d : EntryDoc) : Bool :=
  (d.userId ≠ "") &&
  categoryEnum.contains d.category &&
  entryTypeEnum.contains d.entryType &&
  (d.title ≠ "") && decide (5 ≤ d.title.length) && decide (d.title.length ≤ 100) &&
  (match d.description with
   | none => true
   | some s => decide (s.length ≤ 1000)) &&
  validateOpt d.textContent (textContentValidator d.entryType d.textContent) &&
  validateOpt d.fileData (fileDataValidator d.entryType d.fileData d.fileUrl) &&
  validateOpt d.fileUrl (fileUrlValidator d.entryType d.fileUrl d.fileData) &&
  validateOpt d.videoUrl (videoUrlValidator d.entryType d.videoUrl) &&
  d.entryFee.isSome && d.stripeFee.isSome && d.totalAmount.isSome &&
  (d.paymentIntentId ≠ "") &&
  paymentStatusEnum.contains d.paymentStatus &&
  statusEnum.contains d.status

/-- The persistent state: the `entries` collection, the next generated id,
and a logical clock used for `Date.now()` / `createdAt` timestamps. -/
structure DB where
  entries : List EntryDoc
  nextId : Nat
  now : Nat
deriving DecidableEq

/-- The initial, empty database. -/
def DB.empty : DB := ⟨[], 0, 0⟩

/-- Saving one validated document: append it, advance the id counter and
the clock. -/
def persist (db : DB) (d : EntryDoc) : DB :=
  { db with entries := db.entries ++ [d], nextId := db.nextId + 1, now := db.now + 1 }

/-- An uploaded multipart file as multer presents it. -/
structure UploadedFile where
  originalname : String
  mimetype : String
  size : Nat
  buffer : List Nat
deriving DecidableEq

/-- The body fields the `POST /api/entries` handler reads, plus the
optional uploaded file.  Absent multipart fields are `none`. -/
structure SubmitRequest where
  userId : Option String
  category : Option String
  entryType : Option String
  title : Option String
  description : Option String
  textContent : Option String
  videoUrl : Option String
  paymentIntentId : Option String
  file : Option UploadedFile
deriving DecidableEq

/-- What `stripe.paymentIntents.retrieve` returns: the intent status and the
two metadata fields the handler reads (absent metadata keys are `none`). -/
structure PaymentIntent where
  status : String
  metaEntryFee : Option String
  metaStripeFee : Option String
deriving DecidableEq

/-- Outcome of the entry-submission pipeline. -/
inductive SubmitResult where
  | multerError (msg : String)
  | missingFields
  | fileRequired
  | invalidFileType
  | fileTooLarge
  | paymentNotCompleted (paymentStatus : String)
  | internalError (msg : String)
  | created (entryId : Nat)
deriving DecidableEq

/-- HTTP status code of each submission outcome. -/
def SubmitResult.httpStatus : SubmitResult → Nat
  | .multerError _ => 400
  | .missingFields => 400
  | .fileRequired => 400
  | .invalidFileType => 400
  | .fileTooLarge => 400
  | .paymentNotCompleted _ => 400
  | .internalError _ => 500
  | .created _ => 201

/-- The multer / handler MIME allow-list: PDF, legacy PPT, modern PPTX. -/
def allowedMimeTypes : List String :=
  ["application/pdf", "application/vnd.ms-powerpoint",
   "application/vnd.openxmlformats-officedocument.presentationml.presentation"]

/-- `fileSize: isVercelServerless ? 4MB : 25MB`. -/
def maxFileSize (isVercelServerless : Bool) : Nat :=
  if isVercelServerless then 4 * 1024 * 1024 else 25 * 1024 * 1024

/-- `if (!userId || !category || !entryType || !title || !paymentIntentId)`. -/
def requiredFieldsOk (req : SubmitRequest) : Bool :=
  truthy req.userId && truthy req.category && truthy req.entryType
    && truthy req.title && truthy req.paymentIntentId

/-- The `entryData` object as assembled by the handler before the
type-specific content branch: metadata-derived fees, `totalAmount` as their
JavaScript sum, `paymentStatus: 'succeeded'`, default review status. -/
def baseDoc (db : DB) (req : SubmitRequest) (entryFee stripeFee : Option Int) : EntryDoc :=
  { eid := db.nextId
    userId := req.userId.getD ("")
    category := req.category.getD ("")
    entryType := req.entryType.getD ("")
    title := req.title.getD ("")
    description := req.description
    textContent := none
    fileData := none
    fileName := none
    fileType := none
    fileSize := none
    fileUrl := none
    videoUrl := none
    entryFee := entryFee
    stripeFee := stripeFee
    totalAmount := jsAdd entryFee stripeFee
    paymentIntentId := req.paymentIntentId.getD ("")
    paymentStatus := "succeeded"
    status := "submitted"
    createdAt := db.now }

/-- `entryData` after the type-specific content branch:
`text` copies the body, `pitch-deck` with a file stores the base64 payload
plus file metadata and the synthetic `/api/file/<intentId>` URL, `video`
copies the URL. -/
def buildDoc (db : DB) (req : SubmitRequest) (entryFee stripeFee : Option Int) : EntryDoc :=
  let d0 := baseDoc db req entryFee stripeFee
  if req.entryType = some ("text") then { d0 with textContent := req.textContent }
  else if req.entryType = some ("pitch-deck") then
    match req.file with
    | some f =>
      { d0 with
        fileData := some (base64Encode f.buffer)
        fileName := some f.originalname
        fileType := some f.mimetype
        fileSize := some f.size
        fileUrl := some ("/api/file/" ++ req.paymentIntentId.getD ("")) }
    | none => d0
  else if req.entryType = some ("video") then { d0 with videoUrl := req.videoUrl }
  else d0

/-- The tail of the handler: retrieve the intent (`retrieve` is the gateway
response; a thrown Stripe error is `Except.error` and lands in the
handler's `catch`, a 500), require status `succeeded` (else 400
`Payment not completed`), recompute the fees from the intent metadata,
build the document and save it (`save()` failing validation throws into
the same `catch`). -/
def verifyAndPersist (db : DB) (req : SubmitRequest)
    (retrieve : Except String PaymentIntent) : SubmitResult × DB :=
  match retrieve with
  | .error msg => (.internalError msg, db)
  | .ok pi =>
    if pi.status ≠ "succeeded" then (.paymentNotCompleted pi.status, db)
    else
      let d := buildDoc db req (parseIntJs pi.metaEntryFee) (parseIntJs pi.metaStripeFee)
      if validateDoc d then (.created d.eid, persist db d)
      else (.internalError ("ValidationError"), db)

/-- The handler body of `POST /api/entries` after multer: required-field
check, then the pitch-deck file checks (file present, allowed type, size
limit), then payment verification and persistence. -/
def entriesHandler (isVercelServerless : Bool) (db : DB) (req : SubmitRequest)
    (retrieve : Except String PaymentIntent) : SubmitResult × DB :=
  if requiredFieldsOk req = false then (.missingFields, db)
  else if req.entryType = some ("pitch-deck") then
    match req.file with
    | none => (.fileRequired, db)
    | some f =>
      if allowedMimeTypes.contains f.mimetype = false then (.invalidFileType, db)
      else if maxFileSize isVercelServerless < f.size then (.fileTooLarge, db)
      else verifyAndPersist db req retrieve
  else verifyAndPersist db req retrieve

/-- The full `POST /api/entries` pipeline: the multer middleware first
rejects a file of disallowed MIME type (`fileFilter`) or over the size
limit with a 400, then the handler runs. -/
def entriesRoute (isVercelServerless : Bool) (db : DB) (req : SubmitRequest)
    (retrieve : Except String PaymentIntent) : SubmitResult × DB :=
  match req.file with
  | some f =>
    if allowedMimeTypes.contains f.mimetype = false then
      (.multerError ("Invalid file type. Only PDF and PPT files are allowed."), db)
    else if maxFileSize isVercelServerless < f.size then
      (.multerError ("File too large"), db)
    else entriesHandler isVercelServerless db req retrieve
  | none => entriesHandler isVercelServerless db req retrieve

/-- Outcome of `POST /api/create-payment-intent`. -/
inductive PaymentIntentResult where
  | missingFields
  | invalidCategory
  | created (amountCents : Nat) (entryFee stripeFee totalAmount : Nat)
deriving DecidableEq

/-- The fixed fee table `baseFees`. -/
def baseFees (category : String) : Option Nat :=
  if category = "business" then some 49
  else if category = "creative" then some 49
  else if category = "technology" then some 99
  else if category = "social-impact" then some 49
  else none

/-- `calculateFees`: `stripeFee = Math.ceil(baseAmount * 0.04)` and
`totalAmount = baseAmount + stripeFee`.  On the natural-number fees of the
table the float computation agrees with exact rational arithmetic, so the
ceiling is `(baseAmount * 4 + 99) / 100` in `Nat`. -/
def calculateFees (baseAmount : Nat) : Nat × Nat :=
  let stripeFee := (baseAmount * 4 + 99) / 100
  (stripeFee, baseAmount + stripeFee)

/-- `POST /api/create-payment-intent`: both body fields must be truthy,
the category must be in the fee table (`if (!entryFee)`), then a payment
intent over `totalAmount * 100` cents is created. -/
def createPaymentIntentRoute (category entryType : Option String) : PaymentIntentResult :=
  if truthy category && truthy entryType then
    match category with
    | some c =>
      match baseFees c with
      | some entryFee =>
        let fees := calculateFees entryFee
        PaymentIntentResult.created (fees.2 * 100) entryFee fees.1 fees.2
      | none => PaymentIntentResult.invalidCategory
    | none => PaymentIntentResult.invalidCategory
  else PaymentIntentResult.missingFields

/-- First element of the list satisfying the predicate
(`Entry.findById` / `Entry.findOne`). -/
def findFirst (p : EntryDoc → Bool) : List EntryDoc → Option EntryDoc
  | [] => none
  | e :: es => if p e then some e else findFirst p es

/-- `Entry.findByIdAndDelete`: remove the (unique) document with the given
id — modelled as removing the first match. -/
def removeById (id : Nat) : List EntryDoc → List EntryDoc
  | [] => []
  | e :: es => if e.eid = id then es else e :: removeById id es

/-- `Entry.findOneAndUpdate({paymentIntentId}, {paymentStatus: 'failed'})`:
set `paymentStatus` of the first document with that intent id to
`'failed'`, touching no other field and no other document. -/
def updateFirstFailed : List EntryDoc → String → List EntryDoc
  | [], _ => []
  | e :: es, pid =>
    if e.paymentIntentId = pid then { e with paymentStatus := "failed" } :: es
    else e :: updateFirstFailed es pid

/-- The response transformation of the listing and single-entry routes:
for a pitch-deck entry holding inline data, point `fileUrl` at the file
route, then `delete entry.fileData`. -/
def stripFile (e : EntryDoc) : EntryDoc :=
  let e1 :=
    if e.entryType = "pitch-deck" ∧ e.fileData.isSome = true then
      { e with fileUrl := some ("/api/file/" ++ e.paymentIntentId) }
    else e
  { e1 with fileData := none }

/-- `sort({ createdAt: -1 })`: newer first. -/
def createdDesc (a b : EntryDoc) : Prop := b.createdAt ≤ a.createdAt

instance : DecidableRel createdDesc := fun a b => Nat.decLe b.createdAt a.createdAt

instance : IsTotal EntryDoc createdDesc := ⟨fun a b => Nat.le_total b.createdAt a.createdAt⟩

instance : IsTrans EntryDoc createdDesc :=
  ⟨fun _ _ _ h1 h2 => Nat.le_trans h2 h1⟩

/-- `GET /api/entries/:userId`: that owner's entries, newest first, each
transformed by `stripFile`. -/
def getEntriesRoute (db : DB) (userId : String) : List EntryDoc :=
  (List.insertionSort createdDesc (db.entries.filter (fun e => e.userId = userId))).map stripFile

/-- `GET /api/entry/:id`: the transformed entry, or `none` for a 404. -/
def getEntryRoute (db : DB) (id : Nat) : Option EntryDoc :=
  (findFirst (fun e => e.eid = id) db.entries).map stripFile

/-- Outcome of `DELETE /api/entries/:id`. -/
inductive DeleteResult where
  | notFound
  | forbidden
  | deleted
deriving DecidableEq

/-- HTTP status code of each delete outcome. -/
def DeleteResult.httpStatus : DeleteResult → Nat
  | .notFound => 404
  | .forbidden => 403
  | .deleted => 200

/-- `DELETE /api/entries/:id` with body `{userId}`: 404 if no such entry,
403 unless `entry.userId === userId`, otherwise delete and confirm. -/
def deleteRoute (db : DB) (id : Nat) (requestUserId : Option String) : DeleteResult × DB :=
  match findFirst (fun e => e.eid = id) db.entries with
  | none => (.notFound, db)
  | some e =>
    if requestUserId ≠ some e.userId then (.forbidden, db)
    else (.deleted, { db with entries := removeById id db.entries })

/-- A Stripe webhook event as returned by `constructEvent`. -/
structure StripeEvent where
  eventType : String
  objectId : String
deriving DecidableEq

/-- Outcome of `POST /api/webhook`. -/
inductive WebhookResult where
  | received
  | badRequest (msg : String)
deriving DecidableEq

/-- HTTP status code of each webhook outcome. -/
def WebhookResult.httpStatus : WebhookResult → Nat
  | .received => 200
  | .badRequest _ => 400

/-- `POST /api/webhook`: a missing shared secret or a failed signature
verification (`constructEvent` throwing, modelled by `Except.error`) is a
400 and touches nothing; a verified `payment_intent.payment_failed` event
flips the matching entry's `paymentStatus` to `'failed'`; every other
verified event type just acknowledges. -/
def webhookRoute (webhookSecret : Option String) (db : DB)
    (verify : Except String StripeEvent) : WebhookResult × DB :=
  match webhookSecret with
  | none => (.badRequest ("STRIPE_WEBHOOK_SECRET not found in environment variables"), db)
  | some _ =>
    match verify with
    | .error msg => (.badRequest msg, db)
    | .ok event =>
      if event.eventType = "payment_intent.payment_failed" then
        (.received, { db with entries := updateFirstFailed db.entries event.objectId })
      else (.received, db)

/-- Outcome of the test-entry routes. -/
inductive TestResult where
  | ok (ids : List Nat)
  | serverError
deriving DecidableEq

/-- JavaScript `String.prototype.repeat`. -/
def jsRepeat (s : String) (n : Nat) : String := String.join (List.replicate n s)

/-- The `textContent` literal of `GET /api/create-test-entry/:userId`. -/
def testEntryText : String := jsRepeat ("This is a comprehensive business strategy...") 2

/-- The document built by `GET /api/create-test-entry/:userId`. -/
def testDocSingle (db : DB) (userId : String) : EntryDoc :=
  { eid := db.nextId
    userId := userId
    category := "business"
    entryType := "text"
    title := "Sample Business Strategy Entry"
    description := some ("A comprehensive business strategy for digital transformation in modern enterprises")
    textContent := some testEntryText
    fileData := none, fileName := none, fileType := none, fileSize := none, fileUrl := none
    videoUrl := none
    entryFee := some 49, stripeFee := some 2, totalAmount := some 51
    paymentIntentId := "pi_test_" ++ toString db.now
    paymentStatus := "succeeded"
    status := "submitted"
    createdAt := db.now }

/-- `GET /api/create-test-entry/:userId`: build the fixed document and
`save()` it; a validation failure is a 500 and persists nothing. -/
def createTestEntryRoute (db : DB) (userId : String) : TestResult × DB :=
  let d := testDocSingle db userId
  if validateDoc d then (.ok [d.eid], persist db d)
  else (.serverError, db)

/-- The shared `baseTextContent` of `GET /api/create-test-entries/:userId`. -/
def testEntriesBase : String :=
  jsRepeat ("This business strategy focuses on digital transformation...") 3

/-- `baseTextContent.replace('business strategy', 'AI technology solution')`:
JavaScript `replace` with a string pattern substitutes only the first
occurrence. -/
def testEntriesTechText : String :=
  "This AI technology solution focuses on digital transformation..." ++
    jsRepeat ("This business strategy focuses on digital transformation...") 2

/-- First test document (business / text). -/
def testDocBusiness (db : DB) (userId : String) : EntryDoc :=
  { eid := db.nextId
    userId := userId
    category := "business"
    entryType := "text"
    title := "Innovative Business Strategy"
    description := some ("A comprehensive business strategy for modern markets")
    textContent := some testEntriesBase
    fileData := none, fileName := none, fileType := none, fileSize := none, fileUrl := none
    videoUrl := none
    entryFee := some 49, stripeFee := some 2, totalAmount := some 51
    paymentIntentId := "pi_test_business_" ++ toString db.now
    paymentStatus := "succeeded"
    status := "submitted"
    createdAt := db.now }

/-- Second test document (technology / text). -/
def testDocTech (db : DB) (userId : String) : EntryDoc :=
  { eid := db.nextId
    userId := userId
    category := "technology"
    entryType := "text"
    title := "AI-Powered Solution Platform"
    description := some ("Revolutionary AI application for enterprise automation")
    textContent := some testEntriesTechText
    fileData := none, fileName := none, fileType := none, fileSize := none, fileUrl := none
    videoUrl := none
    entryFee := some 99, stripeFee := some 4, totalAmount := some 103
    paymentIntentId := "pi_test_tech_" ++ toString db.now
    paymentStatus := "succeeded"
    status := "under-review"
    createdAt := db.now }

/-- Third test document (creative / video). -/
def testDocCreative (db : DB) (userId : String) : EntryDoc :=
  { eid := db.nextId
    userId := userId
    category := "creative"
    entryType := "video"
    title := "Creative Digital Showcase"
    description := some ("Artistic expression through innovative digital media")
    textContent := none
    fileData := none, fileName := none, fileType := none, fileSize := none, fileUrl := none
    videoUrl := some ("https://www.youtube.com/watch?v=dQw4w9WgXcQ")
    entryFee := some 49, stripeFee := some 2, totalAmount := some 51
    paymentIntentId := "pi_test_creative_" ++ toString db.now
    paymentStatus := "succeeded"
    status := "finalist"
    createdAt := db.now }

/-- `GET /api/create-test-entries/:userId`: `Entry.insertMany` of the three
documents.  Mongoose validates every document first and, ordered, inserts
nothing when any of them fails. -/
def createTestEntriesRoute (db : DB) (userId : String) : TestResult × DB :=
  let d1 := testDocBusiness db userId
  let dbA := persist db d1
  let d2 := testDocTech dbA userId
  let dbB := persist dbA d2
  let d3 := testDocCreative dbB userId
  if validateDoc d1 && validateDoc d2 && validateDoc d3 then
    (.ok [d1.eid, d2.eid, d3.eid], persist dbB d3)
  else (.serverError, db)

/-- One externally triggered state-changing operation, with the gateway
responses it depends on supplied as data. -/
inductive Op where
  | submit (isVercelServerless : Bool) (req : SubmitRequest)
      (retrieve : Except String PaymentIntent)
  | testEntry (userId : String)
  | testEntries (userId : String)
  | webhook (webhookSecret : Option String) (verify : Except String StripeEvent)
  | deleteOp (id : Nat) (userId : Option String)

/-- State component of running one operation. -/
def applyOp (db : DB) : Op → DB
  | .submit isV req r => (entriesRoute isV db req r).2
  | .testEntry u => (createTestEntryRoute db u).2
  | .testEntries u => (createTestEntriesRoute db u).2
  | .webhook s v => (webhookRoute s db v).2
  | .deleteOp id u => (deleteRoute db id u).2

/-- Databases reachable from the empty collection by any sequence of
operations. -/
inductive Reachable : DB → Prop
  | empty : Reachable DB.empty
  | step {db : DB} (op : Op) : Reachable db → Reachable (applyOp db op)

/-- The reachable-state invariant: generated ids are below the counter and
pairwise distinct; every persisted entry has payment status `succeeded` or
`failed` (never `pending`: every creation path sets `succeeded`
explicitly); inline file data only occurs on pitch-deck entries; and the
total always is the JavaScript sum of the two fee fields, none of them NaN. -/
def Inv (db : DB) : Prop :=
  (∀ e ∈ db.entries, e.eid < db.nextId) ∧
  ((db.entries.map (fun e => e.eid)).Nodup) ∧
  (∀ e ∈ db.entries, e.paymentStatus = "succeeded" ∨ e.paymentStatus = "failed") ∧
  (∀ e ∈ db.entries, e.fileData.isSome = true → e.entryType = "pitch-deck") ∧
  (∀ e ∈ db.entries, e.totalAmount = jsAdd e.entryFee e.stripeFee ∧ e.totalAmount.isSome = true)

/-- `n` words `w`, each followed by one space. -/
def wordChars : Nat → List Char
  | 0 => []
  | n + 1 => 'w' :: ' ' :: wordChars n

/-- A body of exactly `n` whitespace-delimited words. -/
def body (n : Nat) : String := String.mk (wordChars n)

/-- A well-formed text-entry submission referencing intent `pi_1`. -/
def req1 : SubmitRequest :=
  { userId := some ("u1")
    category := some ("business")
    entryType := some ("text")
    title := some ("Valid Entry Title")
    description := none
    textContent := some (body 100)
    videoUrl := none
    paymentIntentId := some ("pi_1")
    file := none }

/-- A succeeded intent for `req1` carrying the round-tripped fee metadata. -/
def pi1 : PaymentIntent :=
  { status := "succeeded", metaEntryFee := some ("49"), metaStripeFee := some ("2") }

/-- Submitting `req1` against the succeeded intent `pi1`. -/
def op1 : Op := Op.submit false req1 (Except.ok pi1)

/-- The database after the successful submission: one entry, id 0,
payment status `succeeded`. -/
def db1 : DB := applyOp DB.empty op1

/-- A verified `payment_intent.payment_failed` event for intent `pi_1`. -/
def evFail : StripeEvent :=
  { eventType := "payment_intent.payment_failed", objectId := "pi_1" }

/-- Delivering `evFail` with a valid signature. -/
def op2 : Op := Op.webhook (some ("whsec_test")) (Except.ok evFail)

/-- The database after the failure webhook hit the succeeded entry. -/
def db2 : DB := applyOp db1 op2

/-- A retrieved intent that is not yet paid. -/
def piBad : PaymentIntent :=
  { status := "requires_payment_method", metaEntryFee := some ("49"), metaStripeFee := some ("2") }

/-- A pitch-deck submission with no file attached. -/
def reqDeckNoFile : SubmitRequest :=
  { userId := some ("u1")
    category := some ("business")
    entryType := some ("pitch-deck")
    title := some ("Valid Entry Title")
    description := none
    textContent := none
    videoUrl := none
    paymentIntentId := some ("pi_2")
    file := none }

/-- An uploaded file whose declared MIME type is `image/png`. -/
def pngFile : UploadedFile :=
  { originalname := "slides.png", mimetype := "image/png", size := 123, buffer := [1, 2, 3] }

/-- A pitch-deck submission with a PNG attached. -/
def reqDeckPng : SubmitRequest :=
  { reqDeckNoFile with file := some pngFile }

/-- A verified event of a type other than `payment_intent.payment_failed`. -/
def evOther : StripeEvent :=
  { eventType := "payment_intent.succeeded", objectId := "pi_1" }

@[simp] theorem buildDoc_eid (db : DB) (req : SubmitRequest) (f s : Option Int) :
    (buildDoc db req f s).eid = db.nextId := by
  unfold buildDoc baseDoc
  dsimp only
  repeat' split
  all_goals rfl

@[simp] theorem buildDoc_paymentStatus (db : DB) (req : SubmitRequest) (f s : Option Int) :
    (buildDoc db req f s).paymentStatus = "succeeded" := by
  unfold buildDoc baseDoc
  dsimp only
  repeat' split
  all_goals rfl

@[simp] theorem buildDoc_entryFee (db : DB) (req : SubmitRequest) (f s : Option Int) :
    (buildDoc db req f s).entryFee = f := by
  unfold buildDoc baseDoc
  dsimp only
  repeat' split
  all_goals rfl

@[simp] theorem buildDoc_stripeFee (db : DB) (req : SubmitRequest) (f s : Option Int) :
    (buildDoc db req f s).stripeFee = s := by
  unfold buildDoc baseDoc
  dsimp only
  repeat' split
  all_goals rfl

@[simp] theorem buildDoc_totalAmount (db : DB) (req : SubmitRequest) (f s : Option Int) :
    (buildDoc db req f s).totalAmount = jsAdd f s := by
  unfold buildDoc baseDoc
  dsimp only
  repeat' split
  all_goals rfl

theorem buildDoc_fileData_deck (db : DB) (req : SubmitRequest) (f s : Option Int)
    (h : (buildDoc db req f s).fileData.isSome = true) :
    (buildDoc db req f s).entryType = "pitch-deck" := by
  unfold buildDoc baseDoc at *
  dsimp only at h ⊢
  split at h
  · simp at h
  · split at h
    · split at h
      · next hty _ => simp_all
      · simp at h
    · split at h <;> simp at h

theorem validateDoc_amounts {d : EntryDoc} (h : validateDoc d = true) :
    d.entryFee.isSome = true ∧ d.stripeFee.isSome = true ∧ d.totalAmount.isSome = true := by
  simp only [validateDoc, Bool.and_eq_true] at h
  exact ⟨by tauto, by tauto, by tauto⟩

theorem verifyAndPersist_state (db : DB) (req : SubmitRequest)
    (r : Except String PaymentIntent) :
    (verifyAndPersist db req r).2 = db ∨
      ∃ pi, r = Except.ok pi ∧ pi.status = "succeeded" ∧
        validateDoc (buildDoc db req (parseIntJs pi.metaEntryFee)
          (parseIntJs pi.metaStripeFee)) = true ∧
        (verifyAndPersist db req r).2 =
          persist db (buildDoc db req (parseIntJs pi.metaEntryFee)
            (parseIntJs pi.metaStripeFee)) := by
  cases r with
  | error msg => exact Or.inl rfl
  | ok pi =>
    by_cases h : pi.status = "succeeded"
    · by_cases hv : validateDoc (buildDoc db req (parseIntJs pi.metaEntryFee)
          (parseIntJs pi.metaStripeFee)) = true
      · exact Or.inr ⟨pi, rfl, h, hv, by simp [verifyAndPersist, h, hv]⟩
      · exact Or.inl (by simp [verifyAndPersist, h, hv])
    · exact Or.inl (by simp [verifyAndPersist, h])

theorem entriesHandler_state (isV : Bool) (db : DB) (req : SubmitRequest)
    (r : Except String PaymentIntent) :
    (entriesHandler isV db req r).2 = db ∨
      entriesHandler isV db req r = verifyAndPersist db req r := by
  unfold entriesHandler
  split
  · exact Or.inl rfl
  · split
    · split
      · exact Or.inl rfl
      · split
        · exact Or.inl rfl
        · split
          · exact Or.inl rfl
          · exact Or.inr rfl
    · exact Or.inr rfl

theorem entriesRoute_state (isV : Bool) (db : DB) (req : SubmitRequest)
    (r : Except String PaymentIntent) :
    (entriesRoute isV db req r).2 = db ∨
      ∃ pi, r = Except.ok pi ∧ pi.status = "succeeded" ∧
        validateDoc (buildDoc db req (parseIntJs pi.metaEntryFee)
          (parseIntJs pi.metaStripeFee)) = true ∧
        (entriesRoute isV db req r).2 =
          persist db (buildDoc db req (parseIntJs pi.metaEntryFee)
            (parseIntJs pi.metaStripeFee)) := by
  have hh := entriesHandler_state isV db req r
  have hv := verifyAndPersist_state db req r
  unfold entriesRoute
  split
  · split
    · exact Or.inl rfl
    · split
      · exact Or.inl rfl
      · rcases hh with h | h
        · exact Or.inl h
        · rw [h]; exact hv
  · rcases hh with h | h
    · exact Or.inl h
    · rw [h]; exact hv

theorem eq_of_mem_nodup_eid {l : List EntryDoc} {e e2 : EntryDoc}
    (hnd : (l.map (fun x => x.eid)).Nodup) (he : e ∈ l) (he2 : e2 ∈ l)
    (heq : e2.eid = e.eid) : e2 = e := by
  induction l with
  | nil => cases he
  | cons hd tl ih =>
    simp only [List.map_cons, List.nodup_cons] at hnd
    rcases List.mem_cons.mp he with he1 | he1 <;>
      rcases List.mem_cons.mp he2 with he3 | he3
    · rw [he1, he3]
    · exfalso
      apply hnd.1
      have hm : e2.eid ∈ tl.map (fun x => x.eid) :=
        List.mem_map_of_mem (fun x => x.eid) he3
      rw [heq, he1] at hm
      exact hm
    · exfalso
      apply hnd.1
      have hm : e.eid ∈ tl.map (fun x => x.eid) :=
        List.mem_map_of_mem (fun x => x.eid) he1
      rw [← heq, he3] at hm
      exact hm
    · exact ih hnd.2 he1 he3

theorem updateFirstFailed_eids (l : List EntryDoc) (pid : String) :
    (updateFirstFailed l pid).map (fun e => e.eid) = l.map (fun e => e.eid) := by
  induction l with
  | nil => rfl
  | cons hd tl ih =>
    unfold updateFirstFailed
    split
    · rfl
    · simpa using ih

theorem updateFirstFailed_mem {l : List EntryDoc} {pid : String} {e2 : EntryDoc}
    (h : e2 ∈ updateFirstFailed l pid) :
    ∃ e ∈ l, e2 = e ∨ e2 = { e with paymentStatus := "failed" } := by
  induction l with
  | nil => cases h
  | cons hd tl ih =>
    unfold updateFirstFailed at h
    split at h
    · rcases List.mem_cons.mp h with rfl | h
      · exact ⟨hd, List.mem_cons_self hd tl, Or.inr rfl⟩
      · exact ⟨e2, List.mem_cons_of_mem hd h, Or.inl rfl⟩
    · rcases List.mem_cons.mp h with rfl | h
      · exact ⟨e2, List.mem_cons_self e2 tl, Or.inl rfl⟩
      · obtain ⟨e, he, hor⟩ := ih h
        exact ⟨e, List.mem_cons_of_mem hd he, hor⟩

theorem updateFirstFailed_cases {l : List EntryDoc} {pid : String} {e e2 : EntryDoc}
    (hnd : (l.map (fun x => x.eid)).Nodup) (he : e ∈ l)
    (he2 : e2 ∈ updateFirstFailed l pid) (heq : e2.eid = e.eid) :
    e2 = e ∨ e2 = { e with paymentStatus := "failed" } := by
  induction l with
  | nil => cases he
  | cons hd tl ih =>
    simp only [List.map_cons, List.nodup_cons] at hnd
    unfold updateFirstFailed at he2
    split at he2
    · rcases List.mem_cons.mp he with he1 | he1 <;>
        rcases List.mem_cons.mp he2 with he3 | he3
      · rw [he1]; exact Or.inr he3
      · exfalso
        apply hnd.1
        have hm : e2.eid ∈ tl.map (fun x => x.eid) :=
          List.mem_map_of_mem (fun x => x.eid) he3
        rw [heq, he1] at hm
        exact hm
      · exfalso
        apply hnd.1
        have hm : e.eid ∈ tl.map (fun x => x.eid) :=
          List.mem_map_of_mem (fun x => x.eid) he1
        rw [← heq, he3] at hm
        exact hm
      · exact Or.inl (eq_of_mem_nodup_eid hnd.2 he1 he3 heq)
    · rcases List.mem_cons.mp he with he1 | he1 <;>
        rcases List.mem_cons.mp he2 with he3 | he3
      · rw [he1, he3]; exact Or.inl rfl
      · exfalso
        apply hnd.1
        have hm : e2.eid ∈ tl.map (fun x => x.eid) := by
          rw [← updateFirstFailed_eids tl pid]
          exact List.mem_map_of_mem (fun x => x.eid) he3
        rw [heq, he1] at hm
        exact hm
      · exfalso
        apply hnd.1
        have hm : e.eid ∈ tl.map (fun x => x.eid) :=
          List.mem_map_of_mem (fun x => x.eid) he1
        rw [← heq, he3] at hm
        exact hm
      · exact ih hnd.2 he1 he3

theorem removeById_sublist (id : Nat) (l : List EntryDoc) :
    List.Sublist (removeById id l) l := by
  induction l with
  | nil => exact List.Sublist.refl []
  | cons hd tl ih =>
    unfold removeById
    split
    · exact List.sublist_cons_self hd tl
    · exact List.Sublist.cons₂ hd ih

theorem mem_removeById_of_ne {l : List EntryDoc} {id : Nat} {x : EntryDoc}
    (hx : x ∈ l) (hne : x.eid ≠ id) : x ∈ removeById id l := by
  induction l with
  | nil => cases hx
  | cons hd tl ih =>
    unfold removeById
    rcases List.mem_cons.mp hx with rfl | hx
    · rw [if_neg hne]
      exact List.mem_cons_self x (removeById id tl)
    · split
      · exact hx
      · exact List.mem_cons_of_mem hd (ih hx)

theorem removeById_eid_ne {l : List EntryDoc} {id : Nat}
    (hnd : (l.map (fun x => x.eid)).Nodup) :
    ∀ x ∈ removeById id l, x.eid ≠ id := by
  induction l with
  | nil => intro x hx; cases hx
  | cons hd tl ih =>
    simp only [List.map_cons, List.nodup_cons] at hnd
    intro x hx
    unfold removeById at hx
    split at hx
    · next hhd =>
      intro hxid
      exact hnd.1 (hhd ▸ hxid ▸ List.mem_map_of_mem (fun y => y.eid) hx)
    · next hhd =>
      rcases List.mem_cons.mp hx with rfl | hx
      · exact hhd
      · exact ih hnd.2 x hx

theorem findFirst_eq_none {p : EntryDoc → Bool} {l : List EntryDoc}
    (h : ∀ x ∈ l, p x = false) : findFirst p l = none := by
  induction l with
  | nil => rfl
  | cons hd tl ih =>
    unfold findFirst
    rw [h hd (List.mem_cons_self hd tl)]
    exact ih (fun x hx => h x (List.mem_cons_of_mem hd hx))

theorem findFirst_mem {p : EntryDoc → Bool} {l : List EntryDoc} {e : EntryDoc}
    (h : findFirst p l = some e) : e ∈ l ∧ p e = true := by
  induction l with
  | nil => cases h
  | cons hd tl ih =>
    unfold findFirst at h
    split at h
    · next hp => cases h; exact ⟨List.mem_cons_self _ _, hp⟩
    · obtain ⟨hm, hp⟩ := ih h
      exact ⟨List.mem_cons_of_mem hd hm, hp⟩

@[simp] theorem persist_entries (db : DB) (d : EntryDoc) :
    (persist db d).entries = db.entries ++ [d] := rfl

@[simp] theorem persist_nextId (db : DB) (d : EntryDoc) :
    (persist db d).nextId = db.nextId + 1 := rfl

/-- Every operation either leaves the state unchanged, appends freshly
numbered documents that were persisted with status `succeeded`, a
consistent total, and inline data only on pitch-decks, or rewrites the
collection by the webhook update or a delete. -/
theorem applyOp_state (db : DB) (op : Op) :
    applyOp db op = db ∨
    (∃ ds, db.nextId ≤ (applyOp db op).nextId ∧
        (applyOp db op).entries = db.entries ++ ds ∧
        (ds.map (fun d => d.eid)).Nodup ∧
        (∀ d ∈ ds, db.nextId ≤ d.eid ∧ d.eid < (applyOp db op).nextId ∧
          d.paymentStatus = "succeeded" ∧
          (d.fileData.isSome = true → d.entryType = "pitch-deck") ∧
          d.totalAmount = jsAdd d.entryFee d.stripeFee ∧ d.totalAmount.isSome = true)) ∨
    (∃ pid, (applyOp db op).entries = updateFirstFailed db.entries pid ∧
        (applyOp db op).nextId = db.nextId) ∨
    (∃ id, (applyOp db op).entries = removeById id db.entries ∧
        (applyOp db op).nextId = db.nextId) := by
  cases op with
  | submit isV req r =>
    rcases entriesRoute_state isV db req r with h | ⟨pi, _, _, hval, heq⟩
    · left
      show (entriesRoute isV db req r).2 = db
      exact h
    · right; left
      refine ⟨[buildDoc db req (parseIntJs pi.metaEntryFee) (parseIntJs pi.metaStripeFee)],
        ?_, ?_, ?_, ?_⟩
      · show db.nextId ≤ ((entriesRoute isV db req r).2).nextId
        rw [heq]; simp
      · show ((entriesRoute isV db req r).2).entries = _
        rw [heq]; rfl
      · simp
      · intro d hd
        rw [List.mem_singleton] at hd
        subst hd
        refine ⟨by simp, ?_, by simp, ?_, by simp, (validateDoc_amounts hval).2.2⟩
        · show _ < ((entriesRoute isV db req r).2).nextId
          rw [heq]; simp
        · exact buildDoc_fileData_deck db req _ _
  | testEntry u =>
    simp only [applyOp]
    unfold createTestEntryRoute
    dsimp only
    split
    · next hval =>
      right; left
      refine ⟨[testDocSingle db u], by simp, rfl, by simp, ?_⟩
      intro d hd
      rw [List.mem_singleton] at hd
      subst hd
      refine ⟨Nat.le_refl _, ?_, rfl, ?_, rfl, rfl⟩
      · simp only [testDocSingle, persist_nextId]; omega
      · intro hfd; simp [testDocSingle] at hfd
    · exact Or.inl rfl
  | testEntries u =>
    simp only [applyOp]
    unfold createTestEntriesRoute
    dsimp only
    split
    · next hval =>
      right; left
      refine ⟨[testDocBusiness db u, testDocTech (persist db (testDocBusiness db u)) u,
          testDocCreative (persist (persist db (testDocBusiness db u))
            (testDocTech (persist db (testDocBusiness db u)) u)) u], ?_, ?_, ?_, ?_⟩
      · simp only [persist_nextId]; omega
      · simp [List.append_assoc]
      · simp [testDocBusiness, testDocTech, testDocCreative]
        omega
      · intro d hd
        simp only [List.mem_cons, List.not_mem_nil, or_false] at hd
        rcases hd with rfl | rfl | rfl
        · refine ⟨Nat.le_refl _, ?_, rfl, ?_, rfl, rfl⟩
          · simp only [testDocBusiness, persist_nextId]; omega
          · intro hfd; simp [testDocBusiness] at hfd
        · refine ⟨?_, ?_, rfl, ?_, rfl, rfl⟩
          · simp only [testDocTech, persist_nextId]; omega
          · simp only [testDocTech, persist_nextId]; omega
          · intro hfd; simp [testDocTech] at hfd
        · refine ⟨?_, ?_, rfl, ?_, rfl, rfl⟩
          · simp only [testDocCreative, persist_nextId]; omega
          · simp only [testDocCreative, persist_nextId]; omega
          · intro hfd; simp [testDocCreative] at hfd
    · exact Or.inl rfl
  | webhook s v =>
    simp only [applyOp]
    cases s with
    | none => exact Or.inl rfl
    | some sec =>
      cases v with
      | error msg => exact Or.inl rfl
      | ok event =>
        by_cases h : event.eventType = "payment_intent.payment_failed"
        · right; right; left
          exact ⟨event.objectId, by simp [webhookRoute, h], by simp [webhookRoute, h]⟩
        · left
          simp [webhookRoute, h]
  | deleteOp id u =>
    simp only [applyOp]
    rcases hf : findFirst (fun e => e.eid = id) db.entries with _ | e
    · left; simp [deleteRoute, hf]
    · by_cases hu : u ≠ some e.userId
      · left; simp [deleteRoute, hf, hu]
      · right; right; right
        exact ⟨id, by simp [deleteRoute, hf, hu], by simp [deleteRoute, hf, hu]⟩

/-- One step preserves the invariant. -/
theorem inv_applyOp {db : DB} (h : Inv db) (op : Op) : Inv (applyOp db op) := by
  obtain ⟨h1, h2, h3, h4, h5⟩ := h
  rcases applyOp_state db op with heq | ⟨ds, hle, hent, hnd, hall⟩ |
      ⟨pid, hent, hnext⟩ | ⟨id, hent, hnext⟩
  · rw [heq]; exact ⟨h1, h2, h3, h4, h5⟩
  · refine ⟨?_, ?_, ?_, ?_, ?_⟩
    · intro e he
      rw [hent] at he
      rcases List.mem_append.mp he with he | he
      · exact Nat.lt_of_lt_of_le (h1 e he) hle
      · exact (hall e he).2.1
    · rw [hent, List.map_append]
      rw [List.nodup_append]
      refine ⟨h2, hnd, ?_⟩
      intro a ha hb
      obtain ⟨e, he, hea⟩ := List.mem_map.mp ha
      obtain ⟨d, hdm, hda⟩ := List.mem_map.mp hb
      have hlt := h1 e he
      have hge := (hall d hdm).1
      omega
    · intro e he
      rw [hent] at he
      rcases List.mem_append.mp he with he | he
      · exact h3 e he
      · exact Or.inl (hall e he).2.2.1
    · intro e he
      rw [hent] at he
      rcases List.mem_append.mp he with he | he
      · exact h4 e he
      · exact (hall e he).2.2.2.1
    · intro e he
      rw [hent] at he
      rcases List.mem_append.mp he with he | he
      · exact h5 e he
      · exact ⟨(hall e he).2.2.2.2.1, (hall e he).2.2.2.2.2⟩
  · refine ⟨?_, ?_, ?_, ?_, ?_⟩
    · intro e he
      rw [hent] at he
      obtain ⟨e0, he0, hor⟩ := updateFirstFailed_mem he
      have heid : e.eid = e0.eid := by rcases hor with h | h <;> rw [h]
      rw [hnext, heid]
      exact h1 e0 he0
    · rw [hent, updateFirstFailed_eids]
      exact h2
    · intro e he
      rw [hent] at he
      obtain ⟨e0, he0, hor⟩ := updateFirstFailed_mem he
      rcases hor with h | h
      · rw [h]; exact h3 e0 he0
      · rw [h]; exact Or.inr rfl
    · intro e he
      rw [hent] at he
      obtain ⟨e0, he0, hor⟩ := updateFirstFailed_mem he
      rcases hor with h | h <;> rw [h]
      · exact h4 e0 he0
      · exact h4 e0 he0
    · intro e he
      rw [hent] at he
      obtain ⟨e0, he0, hor⟩ := updateFirstFailed_mem he
      rcases hor with h | h <;> rw [h]
      · exact h5 e0 he0
      · exact h5 e0 he0
  · have hsub := removeById_sublist id db.entries
    refine ⟨?_, ?_, ?_, ?_, ?_⟩
    · intro e he
      rw [hent] at he
      rw [hnext]
      exact h1 e (hsub.subset he)
    · rw [hent]
      exact (hsub.map (fun e => e.eid)).nodup h2
    · intro e he
      rw [hent] at he
      exact h3 e (hsub.subset he)
    · intro e he
      rw [hent] at he
      exact h4 e (hsub.subset he)
    · intro e he
      rw [hent] at he
      exact h5 e (hsub.subset he)

/-- Every reachable database satisfies the invariant. -/
theorem reach_inv {db : DB} (h : Reachable db) : Inv db := by
  induction h with
  | empty =>
    refine ⟨?_, ?_, ?_, ?_, ?_⟩ <;> simp [DB.empty]
  | step op _ ih => exact inv_applyOp ih op

theorem splitOnWs_word (n : Nat) :
    splitOnWs (wordChars (n + 1)) = ['w'] :: splitOnWs (wordChars n) := by
  have h1 : ('w'.isWhitespace) = false := rfl
  have h2 : (' '.isWhitespace) = true := rfl
  show splitOnWs ('w' :: ' ' :: wordChars n) = _
  rw [splitOnWs, splitOnWs, h1, h2]
  simp

theorem tokCount_wordChars : ∀ n, tokCount (wordChars n) = n := by
  intro n
  induction n with
  | zero => decide
  | succ m ih =>
    unfold tokCount at ih ⊢
    rw [splitOnWs_word m]
    simpa using ih

theorem jsWordCount_body : ∀ n, jsWordCount (some (body n)) = n := by
  intro n
  cases n with
  | zero => decide
  | succ m =>
    have hne : body (m + 1) ≠ "" := by
      intro h
      have h2 : ('w' :: ' ' :: wordChars m : List Char) = [] := congrArg String.data h
      exact List.cons_ne_nil _ _ h2
    have ht : truthy (some (body (m + 1))) = true := by simp [truthy, hne]
    simp only [jsWordCount, ht, if_true]
    exact tokCount_wordChars (m + 1)

theorem map_failed_no_match {l : List EntryDoc} {pid : String}
    (h : ∀ x ∈ l, x.paymentIntentId ≠ pid) :
    l.map (fun e => if e.paymentIntentId = pid then { e with paymentStatus := "failed" }
      else e) = l := by
  induction l with
  | nil => rfl
  | cons hd tl ih =>
    simp only [List.map_cons]
    rw [if_neg (h hd (List.mem_cons_self hd tl)),
      ih (fun x hx => h x (List.mem_cons_of_mem hd hx))]

theorem filter_nil_no_match {l : List EntryDoc} {pid : String}
    (h : l.filter (fun e => e.paymentIntentId = pid) = []) :
    ∀ x ∈ l, x.paymentIntentId ≠ pid := by
  intro x hx hpx
  have hm : x ∈ l.filter (fun e => e.paymentIntentId = pid) :=
    List.mem_filter.mpr ⟨hx, by simp [hpx]⟩
  rw [h] at hm
  cases hm

theorem updateFirstFailed_eq_map {l : List EntryDoc} {pid : String}
    (h : (l.filter (fun e => e.paymentIntentId = pid)).length = 1) :
    updateFirstFailed l pid =
      l.map (fun e => if e.paymentIntentId = pid then { e with paymentStatus := "failed" }
        else e) := by
  induction l with
  | nil => rfl
  | cons hd tl ih =>
    by_cases hh : hd.paymentIntentId = pid
    · have h0 : tl.filter (fun e => e.paymentIntentId = pid) = [] := by
        rw [List.filter_cons, if_pos (by simp [hh])] at h
        have hl : (tl.filter (fun e => e.paymentIntentId = pid)).length = 0 := by
          simpa using h
        exact List.length_eq_zero.mp hl
      unfold updateFirstFailed
      rw [if_pos hh]
      simp only [List.map_cons, if_pos hh]
      rw [map_failed_no_match (filter_nil_no_match h0)]
    · have h1 : (tl.filter (fun e => e.paymentIntentId = pid)).length = 1 := by
        simpa [List.filter_cons, hh] using h
      unfold updateFirstFailed
      rw [if_neg hh]
      simp only [List.map_cons, if_neg hh]
      rw [ih h1]

/-- C5: for `text` entries the schema validator counts whitespace-delimited
tokens, empty tokens excluded, and accepts exactly the counts in
[100, 2000]; a body of exactly 99 words is rejected, bodies of exactly 100
and exactly 2000 words are accepted, and a body of 2001 words is rejected. -/
theorem c5_text_word_count :
    (∀ s : String, textContentValidator ("text") (some s) = true ↔
        (100 ≤ jsWordCount (some s) ∧ jsWordCount (some s) ≤ 2000)) ∧
    (∀ n : Nat, jsWordCount (some (body n)) = n) ∧
    textContentValidator ("text") (some (body 99)) = false ∧
    textContentValidator ("text") (some (body 100)) = true ∧
    textContentValidator ("text") (some (body 2000)) = true ∧
    textContentValidator ("text") (some (body 2001)) = false ∧
    (∀ d : EntryDoc, d.entryType = "text" → d.textContent.isSome = true →
        validateDoc d = true →
        100 ≤ jsWordCount d.textContent ∧ jsWordCount d.textContent ≤ 2000) := by
  have hiff : ∀ v : Option String, textContentValidator ("text") v = true ↔
      (100 ≤ jsWordCount v ∧ jsWordCount v ≤ 2000) := by
    intro v
    simp [textContentValidator]
  refine ⟨fun s => hiff (some s), jsWordCount_body, ?_, ?_, ?_, ?_, ?_⟩
  · simp [textContentValidator, jsWordCount_body 99]
  · simp [textContentValidator, jsWordCount_body 100]
  · simp [textContentValidator, jsWordCount_body 2000]
  · simp [textContentValidator, jsWordCount_body 2001]
  · intro d hty hsome hval
    have hv : validateOpt d.textContent (textContentValidator d.entryType d.textContent)
        = true := by
      simp only [validateDoc, Bool.and_eq_true] at hval
      tauto
    simp only [validateOpt, hsome, if_true] at hv
    rw [hty] at hv
    exact (hiff d.textContent).mp hv

/-- Witness for C5 at the concrete 100-word body. -/
theorem c5_text_word_count_witness :
    100 ≤ jsWordCount (some (body 100)) ∧ jsWordCount (some (body 100)) ≤ 2000 :=
  (c5_text_word_count.1 (body 100)).mp c5_text_word_count.2.2.2.1

/-- C3: every category of the fixed fee table gets
`surcharge = ceil(entryFee * 0.04)` and `total = entryFee + surcharge`
(fee 49 gives surcharge 2 and total 51, fee 99 gives 4 and 103); a category
outside the table makes `POST /api/create-payment-intent` fail with the
invalid-category error, creating no payment intent. -/
theorem c3_fee_calculation :
    (∀ c fee, baseFees c = some fee →
        ((calculateFees fee).1 : ℤ) = Int.ceil ((fee : ℚ) * 0.04)) ∧
    (∀ fee : Nat, (calculateFees fee).2 = fee + (calculateFees fee).1) ∧
    calculateFees 49 = (2, 51) ∧
    calculateFees 99 = (4, 103) ∧
    (∀ c et : String, truthy (some c) = true → truthy (some et) = true →
        baseFees c = none →
        createPaymentIntentRoute (some c) (some et) = PaymentIntentResult.invalidCategory) ∧
    (∀ c fee et, baseFees c = some fee → truthy (some et) = true →
        createPaymentIntentRoute (some c) (some et) =
          PaymentIntentResult.created ((calculateFees fee).2 * 100) fee
            (calculateFees fee).1 (calculateFees fee).2) := by
  have h49 : ((calculateFees 49).1 : ℤ) = Int.ceil ((49 : ℚ) * 0.04) := by
    have : ((calculateFees 49).1 : ℤ) = 2 := by norm_num [calculateFees]
    rw [this, eq_comm, Int.ceil_eq_iff]
    norm_num
  have h99 : ((calculateFees 99).1 : ℤ) = Int.ceil ((99 : ℚ) * 0.04) := by
    have : ((calculateFees 99).1 : ℤ) = 4 := by norm_num [calculateFees]
    rw [this, eq_comm, Int.ceil_eq_iff]
    norm_num
  refine ⟨?_, fun fee => rfl, by decide, by decide, ?_, ?_⟩
  · intro c fee h
    unfold baseFees at h
    split_ifs at h
    · injection h with h2; subst h2; exact h49
    · injection h with h2; subst h2; exact h49
    · injection h with h2; subst h2; exact h99
    · injection h with h2; subst h2; exact h49
  · intro c et h1 h2 h3
    unfold createPaymentIntentRoute
    rw [if_pos (by simp [h1, h2])]
    simp [h3]
  · intro c fee et h1 h2
    have h2n : et ≠ "" := by simpa [truthy] using h2
    unfold baseFees at h1
    split_ifs at h1 with hc1 hc2 hc3 hc4
    · subst hc1; injection h1 with h3; subst h3
      unfold createPaymentIntentRoute
      rw [if_pos (by simp [truthy, h2n])]
      simp [baseFees]
    · subst hc2; injection h1 with h3; subst h3
      unfold createPaymentIntentRoute
      rw [if_pos (by simp [truthy, h2n])]
      simp [baseFees]
    · subst hc3; injection h1 with h3; subst h3
      unfold createPaymentIntentRoute
      rw [if_pos (by simp [truthy, h2n])]
      simp [baseFees]
    · subst hc4; injection h1 with h3; subst h3
      unfold createPaymentIntentRoute
      rw [if_pos (by simp [truthy, h2n])]
      simp [baseFees]

/-- Witness for C3: the business tier and an unknown category. -/
theorem c3_fee_calculation_witness :
    ((calculateFees 49).1 : ℤ) = Int.ceil ((49 : ℚ) * 0.04) ∧
    createPaymentIntentRoute (some ("pets")) (some ("text"))
      = PaymentIntentResult.invalidCategory :=
  ⟨c3_fee_calculation.1 ("business") 49 (by decide),
   c3_fee_calculation.2.2.2.2.1 ("pets") ("text") (by decide) (by decide) (by decide)⟩

/-- C7: deleting a missing id is 404 and removes nothing; deleting someone
else's entry is 403 and leaves the store unchanged; deleting one's own
entry is 200, removes it, keeps every other entry, and a subsequent get of
that id is 404. -/
theorem c7_delete_authorization (db : DB) (id : Nat) (ruid : Option String)
    (hnd : (db.entries.map (fun e => e.eid)).Nodup) :
    (findFirst (fun e => e.eid = id) db.entries = none →
        deleteRoute db id ruid = (DeleteResult.notFound, db) ∧
        DeleteResult.httpStatus (deleteRoute db id ruid).1 = 404) ∧
    (∀ e, findFirst (fun e => e.eid = id) db.entries = some e →
        ruid ≠ some e.userId →
        deleteRoute db id ruid = (DeleteResult.forbidden, db) ∧
        DeleteResult.httpStatus (deleteRoute db id ruid).1 = 403) ∧
    (∀ e, findFirst (fun e => e.eid = id) db.entries = some e →
        ruid = some e.userId →
        (deleteRoute db id ruid).1 = DeleteResult.deleted ∧
        DeleteResult.httpStatus (deleteRoute db id ruid).1 = 200 ∧
        (∀ x ∈ (deleteRoute db id ruid).2.entries, x.eid ≠ id) ∧
        (∀ x ∈ db.entries, x.eid ≠ id → x ∈ (deleteRoute db id ruid).2.entries) ∧
        getEntryRoute (deleteRoute db id ruid).2 id = none) := by
  refine ⟨?_, ?_, ?_⟩
  · intro h
    simp [deleteRoute, h, DeleteResult.httpStatus]
  · intro e hf hne
    simp [deleteRoute, hf, hne, DeleteResult.httpStatus]
  · intro e hf heq
    have hroute : deleteRoute db id ruid =
        (DeleteResult.deleted, { db with entries := removeById id db.entries }) := by
      simp [deleteRoute, hf, heq]
    rw [hroute]
    refine ⟨rfl, rfl, removeById_eid_ne hnd, ?_, ?_⟩
    · intro x hx hne
      exact mem_removeById_of_ne hx hne
    · unfold getEntryRoute
      rw [findFirst_eq_none]
      · rfl
      · intro x hx
        simp [removeById_eid_ne hnd x hx]

/-- Witness for C7: the owner deletes the one entry of `db1`. -/
theorem c7_delete_authorization_witness :
    (deleteRoute db1 0 (some ("u1"))).1 = DeleteResult.deleted ∧
    getEntryRoute (deleteRoute db1 0 (some ("u1"))).2 0 = none := by
  have h := (c7_delete_authorization db1 0 (some ("u1")) (by decide)).2.2
    (db1.entries.headI) (by decide) (by decide)
  exact ⟨h.1, h.2.2.2.2⟩

/-- C9: a webhook delivery failing signature verification is answered with
400 and mutates nothing; a verified `payment_intent.payment_failed` event
whose intent id matches exactly one entry flips exactly that entry's
payment status to `failed`, leaving its other fields and all other entries
untouched. -/
theorem c9_webhook_failed_update (db : DB) (secret : Option String) :
    (∀ msg, (webhookRoute secret db (Except.error msg)).2 = db ∧
        WebhookResult.httpStatus (webhookRoute secret db (Except.error msg)).1 = 400) ∧
    (∀ s ev, secret = some s → ev.eventType = "payment_intent.payment_failed" →
        (db.entries.filter (fun e => e.paymentIntentId = ev.objectId)).length = 1 →
        webhookRoute secret db (Except.ok ev) =
          (WebhookResult.received,
           { db with entries := db.entries.map (fun e =>
               if e.paymentIntentId = ev.objectId then { e with paymentStatus := "failed" }
               else e) })) := by
  constructor
  · intro msg
    cases secret <;> simp [webhookRoute, WebhookResult.httpStatus]
  · intro s ev hs hty huniq
    subst hs
    simp only [webhookRoute]
    rw [if_pos hty, updateFirstFailed_eq_map huniq]

/-- Witness for C9: the failure webhook flips the single matching entry. -/
theorem c9_webhook_failed_update_witness :
    (webhookRoute (some ("whsec_test")) db1 (Except.ok evFail)).1
      = WebhookResult.received := by
  have h := (c9_webhook_failed_update db1 (some ("whsec_test"))).2 ("whsec_test") evFail
    rfl (by decide) (by decide)
  rw [h]

/-- C10: a verified webhook event of any type other than
`payment_intent.payment_failed` is acknowledged with success and modifies
no entry in any field. -/
theorem c10_webhook_other_events (db : DB) (s : String) (ev : StripeEvent)
    (h : ev.eventType ≠ "payment_intent.payment_failed") :
    webhookRoute (some s) db (Except.ok ev) = (WebhookResult.received, db) := by
  simp [webhookRoute, h]

/-- Witness for C10: a `payment_intent.succeeded` event leaves `db1` alone. -/
theorem c10_webhook_other_events_witness :
    webhookRoute (some ("whsec_test")) db1 (Except.ok evOther)
      = (WebhookResult.received, db1) :=
  c10_webhook_other_events db1 ("whsec_test") evOther (by decide)

/-- Counterexample to C1: when the gateway retrieval throws, the handler's
catch block answers with the generic 500 `Failed to submit entry` internal
error, not the 400 `Payment not completed` outcome the claim asserts.  (No
entry is persisted either way.) -/
theorem c1_counterexample :
    entriesRoute false DB.empty req1 (Except.error ("gateway unreachable"))
      = (SubmitResult.internalError ("gateway unreachable"), DB.empty) ∧
    SubmitResult.httpStatus
      (entriesRoute false DB.empty req1 (Except.error ("gateway unreachable"))).1
      = 500 :=
  ⟨by decide, by decide⟩

/-- C1 (amended): a retrieved intent with non-`succeeded` status makes the
submission end in `Payment not completed` (400) with nothing persisted;
a gateway retrieval error ends in the 500 internal error, also with
nothing persisted. -/
theorem c1_payment_verification (isV : Bool) (db : DB) (req : SubmitRequest) :
    (∀ pi, pi.status ≠ "succeeded" →
        verifyAndPersist db req (Except.ok pi)
          = (SubmitResult.paymentNotCompleted pi.status, db)) ∧
    (∀ msg, verifyAndPersist db req (Except.error msg)
        = (SubmitResult.internalError msg, db)) ∧
    (∀ pi, pi.status ≠ "succeeded" →
        (entriesRoute isV db req (Except.ok pi)).2 = db) ∧
    (∀ msg, (entriesRoute isV db req (Except.error msg)).2 = db) ∧
    (∀ ps, SubmitResult.httpStatus (SubmitResult.paymentNotCompleted ps) = 400) := by
  refine ⟨?_, fun msg => rfl, ?_, ?_, fun ps => rfl⟩
  · intro pi h
    simp [verifyAndPersist, h]
  · intro pi h
    rcases entriesRoute_state isV db req (Except.ok pi) with h2 | ⟨pi2, hok, hst, _, _⟩
    · exact h2
    · injection hok with hok2
      subst hok2
      exact absurd hst h
  · intro msg
    rcases entriesRoute_state isV db req (Except.error msg) with h2 | ⟨pi2, hok, _, _, _⟩
    · exact h2
    · exact Except.noConfusion hok

/-- Witness for C1 at the unpaid intent `piBad`. -/
theorem c1_payment_verification_witness :
    verifyAndPersist DB.empty req1 (Except.ok piBad)
      = (SubmitResult.paymentNotCompleted ("requires_payment_method"), DB.empty) :=
  (c1_payment_verification false DB.empty req1).1 piBad (by decide)

/-- C6: a pitch-deck submission without a file is rejected with 400 before
anything is persisted, and an attached file whose declared MIME type is
outside the allow-list (in particular `image/png`) is rejected by the
multer file filter regardless of its size, again persisting nothing. -/
theorem c6_pitch_deck_rejection (isV : Bool) (db : DB) (req : SubmitRequest)
    (r : Except String PaymentIntent) :
    (requiredFieldsOk req = true → req.entryType = some ("pitch-deck") →
        req.file = none →
        entriesRoute isV db req r = (SubmitResult.fileRequired, db)) ∧
    (∀ f, req.file = some f → allowedMimeTypes.contains f.mimetype = false →
        entriesRoute isV db req r =
          (SubmitResult.multerError ("Invalid file type. Only PDF and PPT files are allowed."),
           db)) ∧
    allowedMimeTypes.contains ("image/png") = false := by
  refine ⟨?_, ?_, by decide⟩
  · intro hreq hty hfile
    simp [entriesRoute, entriesHandler, hfile, hreq, hty]
  · intro f hf hmime
    simp only [entriesRoute, hf]
    rw [if_pos hmime]

/-- Witness for C6: a deck submission without a file and one with a PNG. -/
theorem c6_pitch_deck_rejection_witness :
    entriesRoute false DB.empty reqDeckNoFile (Except.error ("x"))
      = (SubmitResult.fileRequired, DB.empty) ∧
    entriesRoute false DB.empty reqDeckPng (Except.error ("x"))
      = (SubmitResult.multerError ("Invalid file type. Only PDF and PPT files are allowed."),
         DB.empty) :=
  ⟨(c6_pitch_deck_rejection false DB.empty reqDeckNoFile (Except.error ("x"))).1
      (by decide) (by decide) rfl,
   (c6_pitch_deck_rejection false DB.empty reqDeckPng (Except.error ("x"))).2.1
      pngFile rfl (by decide)⟩

/-- Counterexample to C2: the sequence submit-then-failure-webhook is
reachable and flips the persisted entry's payment status from `succeeded`
to `failed` — exactly the transition the claim says never happens.  (No
entry is ever `pending`: every creation path sets `succeeded` directly.) -/
theorem c2_counterexample :
    Reachable db2 ∧
    db1.entries.map (fun e => e.paymentStatus) = ["succeeded"] ∧
    db2.entries.map (fun e => e.paymentStatus) = ["failed"] ∧
    db2.entries.map (fun e => e.eid) = db1.entries.map (fun e => e.eid) ∧
    db2 = applyOp db1 op2 :=
  ⟨Reachable.step op2 (Reachable.step op1 Reachable.empty),
   by decide, by decide, by decide, rfl⟩

/-- C2 (amended): in every reachable database an entry's payment status is
`succeeded` or `failed` (`pending` never occurs because every creation
path sets `succeeded` explicitly), and a single step either leaves an
entry's status unchanged or flips it from `succeeded` to `failed` (via the
failure webhook); in particular `failed → succeeded` never happens. -/
theorem c2_payment_status_transitions (db : DB) (hreach : Reachable db) :
    (∀ e ∈ db.entries, e.paymentStatus = "succeeded" ∨ e.paymentStatus = "failed") ∧
    (∀ op, ∀ e ∈ db.entries, ∀ e2 ∈ (applyOp db op).entries, e2.eid = e.eid →
        e2.paymentStatus = e.paymentStatus ∨
          (e.paymentStatus = "succeeded" ∧ e2.paymentStatus = "failed")) := by
  obtain ⟨h1, h2, h3, _, _⟩ := reach_inv hreach
  refine ⟨h3, ?_⟩
  intro op e he e2 he2 heq
  rcases applyOp_state db op with hsame | ⟨ds, hle, hent, hnd, hall⟩ |
      ⟨pid, hent, _⟩ | ⟨id, hent, _⟩
  · rw [hsame] at he2
    rw [eq_of_mem_nodup_eid h2 he he2 heq]
    exact Or.inl rfl
  · rw [hent] at he2
    rcases List.mem_append.mp he2 with hm | hm
    · rw [eq_of_mem_nodup_eid h2 he hm heq]
      exact Or.inl rfl
    · exfalso
      have ha := (hall e2 hm).1
      have hb := h1 e he
      omega
  · rw [hent] at he2
    rcases updateFirstFailed_cases h2 he he2 heq with h | h
    · rw [h]; exact Or.inl rfl
    · rcases h3 e he with hs | hs
      · exact Or.inr ⟨hs, by rw [h]⟩
      · refine Or.inl ?_
        rw [h, hs]
  · rw [hent] at he2
    have hm := (removeById_sublist id db.entries).subset he2
    rw [eq_of_mem_nodup_eid h2 he hm heq]
    exact Or.inl rfl

/-- Witness for C2 at the one-entry database `db1`. -/
theorem c2_payment_status_transitions_witness :
    db1.entries.headI.paymentStatus = "succeeded" ∨
      db1.entries.headI.paymentStatus = "failed" :=
  (c2_payment_status_transitions db1 (Reachable.step op1 Reachable.empty)).1
    (db1.entries.headI) (by decide)

/-- C4: every entry in every reachable database satisfies
`totalAmount = entryFee + stripeFee` (with none of the fields NaN), and a
submission that persists a document always takes `entryFee` and
`stripeFee` from the retrieved payment intent's metadata — the request
carries no amount fields at all. -/
theorem c4_total_amount_invariant (db : DB) (hreach : Reachable db) :
    (∀ e ∈ db.entries, e.totalAmount = jsAdd e.entryFee e.stripeFee ∧
        e.totalAmount.isSome = true) ∧
    (∀ (isV : Bool) (req : SubmitRequest) (pi : PaymentIntent) (d : EntryDoc),
        (entriesRoute isV db req (Except.ok pi)).2.entries = db.entries ++ [d] →
        d.entryFee = parseIntJs pi.metaEntryFee ∧
        d.stripeFee = parseIntJs pi.metaStripeFee ∧
        d.totalAmount = jsAdd d.entryFee d.stripeFee) := by
  refine ⟨(reach_inv hreach).2.2.2.2, ?_⟩
  intro isV req pi d hent
  rcases entriesRoute_state isV db req (Except.ok pi) with hsame | ⟨pi2, hok, _, _, heq⟩
  · rw [hsame] at hent
    have hlen := congrArg List.length hent
    simp at hlen
  · injection hok with hok2
    subst hok2
    rw [heq] at hent
    simp only [persist_entries] at hent
    have hd := List.append_cancel_left hent
    have hd2 : buildDoc db req (parseIntJs pi.metaEntryFee)
        (parseIntJs pi.metaStripeFee) = d := by
      simpa using hd
    subst hd2
    exact ⟨by simp, by simp, by simp⟩

/-- Witness for C4 at the one-entry database `db1`. -/
theorem c4_total_amount_invariant_witness :
    db1.entries.headI.totalAmount
        = jsAdd db1.entries.headI.entryFee db1.entries.headI.stripeFee ∧
      db1.entries.headI.totalAmount.isSome = true :=
  (c4_total_amount_invariant db1 (Reachable.step op1 Reachable.empty)).1
    (db1.entries.headI) (by decide)

@[simp] theorem stripFile_createdAt (e : EntryDoc) :
    (stripFile e).createdAt = e.createdAt := by
  unfold stripFile
  dsimp only
  split <;> rfl

@[simp] theorem stripFile_fileData (e : EntryDoc) :
    (stripFile e).fileData = none := rfl

/-- C8: the listing route returns exactly the requested owner's entries
(as a permutation of the transformed filter), ordered by creation time
descending, with every inline file payload removed; a pitch-deck entry
holding inline data gets its `fileUrl` pointed at the retrieval route and
still appears in the listing. -/
theorem c8_list_entries (db : DB) (uid : String) (hreach : Reachable db) :
    List.Perm (getEntriesRoute db uid)
      ((db.entries.filter (fun e => e.userId = uid)).map stripFile) ∧
    List.Pairwise (fun a b => b.createdAt ≤ a.createdAt) (getEntriesRoute db uid) ∧
    (∀ e ∈ getEntriesRoute db uid, e.fileData = none) ∧
    (∀ x ∈ db.entries, x.userId = uid → x.fileData.isSome = true →
        x.entryType = "pitch-deck" ∧
        (stripFile x).fileUrl = some ("/api/file/" ++ x.paymentIntentId) ∧
        stripFile x ∈ getEntriesRoute db uid) := by
  have hperm := List.perm_insertionSort createdDesc
    (db.entries.filter (fun e => e.userId = uid))
  refine ⟨hperm.map stripFile, ?_, ?_, ?_⟩
  · have hs := List.sorted_insertionSort createdDesc
      (db.entries.filter (fun e => e.userId = uid))
    unfold getEntriesRoute
    rw [List.pairwise_map]
    exact hs.imp (fun {a b} h => by
      simpa [stripFile_createdAt] using h)
  · intro e he
    unfold getEntriesRoute at he
    obtain ⟨x, _, hx⟩ := List.mem_map.mp he
    rw [← hx]
    exact stripFile_fileData x
  · intro x hx huid hfd
    have hdeck := (reach_inv hreach).2.2.2.1 x hx hfd
    refine ⟨hdeck, ?_, ?_⟩
    · unfold stripFile
      dsimp only
      rw [if_pos ⟨hdeck, hfd⟩]
    · unfold getEntriesRoute
      apply List.mem_map_of_mem
      rw [List.mem_insertionSort]
      exact List.mem_filter.mpr ⟨hx, by simp [huid]⟩

/-- Witness for C8 at the one-entry database `db1`. -/
theorem c8_list_entries_witness :
    List.Pairwise (fun a b => b.createdAt ≤ a.createdAt)
      (getEntriesRoute db1 ("u1")) :=
  (c8_list_entries db1 ("u1") (Reachable.step op1 Reachable.empty)).2.1

end ContestApi
